import Mathlib

/-
Verification of the decision-tree implementation (PointSet.py, Tree.py).

The embedding is shallow: Python floats are modelled by ℚ (all arithmetic in
the claims is exact: Gini scores, midpoints, comparisons), numpy arrays by
lists, mutation by explicit state passing, and the exception raised by
PointSet.get_best_threshold by an Except value.  Machine-level float rounding
plays no role in any claim considered here.
-/

namespace DecisionTree

/-- Feature type tags, from PointSet.py (enum FeaturesTypes). -/
inductive FeaturesTypes where
  | BOOLEAN
  | CLASSES
  | REAL
deriving DecidableEq, Repr

/-- A set of training points with its per-feature types and the write-once
caches filled in by get_best_gain, mirroring PointSet.__init__.  The field
self.split of the Python class is written once to None and never read, so it
is omitted; types models the list after __init__'s None filter (no claim
passes a None type). -/
structure PointSet where
  types : List FeaturesTypes
  features : List (List ℚ)
  labels : List Bool
  threshold : Option ℚ
  selected_feature_id : Option ℕ
  category_id : Option ℚ
deriving DecidableEq, Repr

/-- PointSet.__init__: fresh caches. -/
def PointSet.init (features : List (List ℚ)) (labels : List Bool)
    (types : List FeaturesTypes) : PointSet :=
  ⟨types, features, labels, none, none, none⟩

/-- PointSet.get_gini.  In Python a zero-size label array raises
ZeroDivisionError; in ℚ division by zero yields 0, and every caller in the
source (and every claim) uses it on nonempty sets only. -/
def PointSet.get_gini (ps : PointSet) : ℚ :=
  let total := ps.labels.length
  let count_label_true := ps.labels.countP (fun b => b)
  1 - ((count_label_true : ℚ) / (total : ℚ)) ^ 2
    - (((total - count_label_true : ℕ) : ℚ) / (total : ℚ)) ^ 2

/-- One candidate split examined by the loop body of get_best_gain: the four
counts (c00, c01) below / equal-to-candidate and (c10, c11) above / different,
the threshold a REAL candidate would record, the category a CLASSES candidate
would record, and pos, the enumerate index k of the candidate in its values
list. -/
structure Candidate where
  pos : ℕ
  c00 : ℕ
  c01 : ℕ
  c10 : ℕ
  c11 : ℕ
  thr : Option ℚ
  cat : Option ℚ
deriving DecidableEq, Repr

/-- Insert a (value, label) pair into a list sorted by value (stable: equal
values go after existing ones). -/
def insertSorted (q : ℚ × Bool) : List (ℚ × Bool) → List (ℚ × Bool)
  | [] => [q]
  | x :: xs => if q.1 < x.1 then q :: x :: xs else x :: insertSorted q xs

/-- Sort (feature value, label) pairs by value ascending.  This models
np.argsort followed by indexing values and labels: get_best_gain only reads
the running counts at value-change positions, and those counts depend only on
the multiset of pairs and the value order, so the tie order of the sort is
unobservable and any sort by value is a faithful model. -/
def sortPairs (l : List (ℚ × Bool)) : List (ℚ × Bool) := l.foldr insertSorted []

/-- Insert a value into a sorted duplicate-free list, dropping it if present. -/
def insertUnique (v : ℚ) : List ℚ → List ℚ
  | [] => [v]
  | x :: xs => if v < x then v :: x :: xs else if v = x then x :: xs else x :: insertUnique v xs

/-- Sorted distinct values of a list; models np.unique (and list(set(...)),
whose arbitrary hash order is modelled deterministically; that list is only
informational, never used for routing). -/
def sortedUnique (l : List ℚ) : List ℚ := l.foldr insertUnique []

/-- The REAL branch of get_best_gain's candidate loop: walk the sorted
(value, label) pairs keeping the running counts, moving one point below the
cut per step, and emit a candidate exactly at the positions the loop does not
`continue` over: k > 0 and value different from its predecessor.  The
threshold expression keeps the source's `val if k == 0 else midpoint` shape
even though the k = 0 arm is unreachable (k = 0 is always skipped). -/
def realCandidatesAux : ℕ → Option ℚ → ℕ → ℕ → ℕ → ℕ → List (ℚ × Bool) → List Candidate
  | _, _, _, _, _, _, [] => []
  | k, prev, c00, c01, c10, c11, (v, lb) :: rest =>
    let emitted : List Candidate :=
      match prev with
      | none => []
      | some pv =>
        if v = pv then []
        else [⟨k, c00, c01, c10, c11, some (if k = 0 then v else (pv + v) / 2), none⟩]
    emitted ++
      (if lb then realCandidatesAux (k + 1) (some v) c00 (c01 + 1) c10 (c11 - 1) rest
       else realCandidatesAux (k + 1) (some v) (c00 + 1) c01 (c10 - 1) c11 rest)

/-- The one-vs-rest counting pass shared by the CLASSES and BOOLEAN branches:
classify every (feature value, label) pair against the candidate value.  The
Python loop accumulates left to right; the counts are order-independent sums,
so a right fold is equivalent. -/
def countSplit (val : ℚ) : List (ℚ × Bool) → ℕ × ℕ × ℕ × ℕ
  | [] => (0, 0, 0, 0)
  | (f, lb) :: rest =>
    let r := countSplit val rest
    if lb = false ∧ f = val then (r.1 + 1, r.2.1, r.2.2.1, r.2.2.2)
    else if lb = true ∧ f = val then (r.1, r.2.1 + 1, r.2.2.1, r.2.2.2)
    else if lb = false ∧ f ≠ val then (r.1, r.2.1, r.2.2.1 + 1, r.2.2.2)
    else (r.1, r.2.1, r.2.2.1, r.2.2.2 + 1)

/-- The (value, label) pairs of column i in the sorted order the REAL branch
walks them. -/
def realSortedPairs (ps : PointSet) (i : ℕ) : List (ℚ × Bool) :=
  sortPairs ((ps.features.map (fun p => p.getD i 0)).zip ps.labels)

/-- The candidates feature column i contributes, keyed by its type, from
get_best_gain's per-column setup.  Indexing is by getD: the source assumes
(and every claim provides) a rectangular feature matrix whose width equals
the length of the type vector. -/
def columnCandidates (ps : PointSet) (i : ℕ) : List Candidate :=
  let f_values := ps.features.map (fun p => p.getD i 0)
  match ps.types.getD i FeaturesTypes.BOOLEAN with
  | FeaturesTypes.REAL =>
    let s := ps.labels.countP (fun b => b)
    let total := ps.labels.length
    realCandidatesAux 0 none 0 0 (total - s) s (realSortedPairs ps i)
  | FeaturesTypes.CLASSES =>
    (sortedUnique f_values).enum.map (fun kv =>
      let r := countSplit kv.2 (f_values.zip ps.labels)
      ⟨kv.1, r.1, r.2.1, r.2.2.1, r.2.2.2, none, some kv.2⟩)
  | FeaturesTypes.BOOLEAN =>
    let r := countSplit 0 (f_values.zip ps.labels)
    [⟨0, r.1, r.2.1, r.2.2.1, r.2.2.2, none, none⟩]

/-- The mutable loop state of get_best_gain: res, threshold_found and
category_id_found. -/
structure GainState where
  res : Option (ℕ × ℚ)
  threshold_found : Option ℚ
  category_id_found : Option ℚ
deriving DecidableEq, Repr

/-- The body of the accept branch: record feature index and gain, and the
type-appropriate threshold or category (REAL candidates carry thr, CLASSES
candidates carry cat, BOOLEAN candidates carry neither). -/
def recordCandidate (i : ℕ) (gini_gain : ℚ) (st : GainState) (c : Candidate) : GainState :=
  ⟨some (i, gini_gain),
   (match c.thr with | some t => some t | none => st.threshold_found),
   (match c.cat with | some v => some v | none => st.category_id_found)⟩

/-- The min_split_points re-check performed inside the improvement branch:
reject (keep scanning with the old state) when either side is below the
floor. -/
def acceptCandidate (msp : Option ℕ) (i : ℕ) (gini_gain : ℚ)
    (st : GainState) (c : Candidate) : GainState :=
  match msp with
  | some m =>
    if c.c00 + c.c01 < m ∨ c.c10 + c.c11 < m then st
    else recordCandidate i gini_gain st c
  | none => recordCandidate i gini_gain st c

/-- One iteration of get_best_gain's candidate loop: skip when a side is
empty, compute both side Ginis and the gain, and accept on strict
improvement (or when nothing has been recorded yet). -/
def stepCandidate (gini_parent : ℚ) (total : ℕ) (msp : Option ℕ) (i : ℕ)
    (st : GainState) (c : Candidate) : GainState :=
  if c.c00 + c.c01 = 0 ∨ c.c10 + c.c11 = 0 then st
  else
    let gini0 : ℚ := 1 - ((c.c00 : ℚ) / ((c.c00 : ℚ) + (c.c01 : ℚ))) ^ 2
      - ((c.c01 : ℚ) / ((c.c00 : ℚ) + (c.c01 : ℚ))) ^ 2
    let gini1 : ℚ := 1 - ((c.c10 : ℚ) / ((c.c10 : ℚ) + (c.c11 : ℚ))) ^ 2
      - ((c.c11 : ℚ) / ((c.c10 : ℚ) + (c.c11 : ℚ))) ^ 2
    let gini_split : ℚ := ((c.c00 : ℚ) + (c.c01 : ℚ)) / (total : ℚ) * gini0
      + ((c.c10 : ℚ) + (c.c11 : ℚ)) / (total : ℚ) * gini1
    let gini_gain := gini_parent - gini_split
    match st.res with
    | none => acceptCandidate msp i gini_gain st c
    | some p => if gini_gain > p.2 then acceptCandidate msp i gini_gain st c else st

/-- Number of feature columns, features.shape[1] of the nonempty rectangular
matrix. -/
def PointSet.ncols (ps : PointSet) : ℕ := (ps.features.headD []).length

/-- The whole candidate loop of get_best_gain: every column's candidates in
order, threaded through stepCandidate from the initial all-None state.  The
parent Gini and the total are the loop constants the source computes
before / inside the loop. -/
def gainFold (ps : PointSet) (msp : Option ℕ) : GainState :=
  (List.range ps.ncols).foldl
    (fun st i => (columnCandidates ps i).foldl
      (stepCandidate ps.get_gini ps.labels.length msp i) st)
    ⟨none, none, none⟩

/-- PointSet.get_best_gain: (none, none) on an empty point set, otherwise run
the candidate loop over every column and, when a winner exists, store the
winning feature id and its type-appropriate threshold or category on the
point set. -/
def PointSet.get_best_gain (ps : PointSet) (min_split_points : Option ℕ) :
    PointSet × Option ℕ × Option ℚ :=
  if ps.features.length = 0 then (ps, none, none)
  else
    match (gainFold ps min_split_points).res with
    | none => (ps, none, none)
    | some p =>
      (⟨ps.types, ps.features, ps.labels,
        (if ps.types.getD p.1 FeaturesTypes.BOOLEAN = FeaturesTypes.REAL
          then (gainFold ps min_split_points).threshold_found else ps.threshold),
        some p.1,
        (if ps.types.getD p.1 FeaturesTypes.BOOLEAN = FeaturesTypes.CLASSES
          then (gainFold ps min_split_points).category_id_found else ps.category_id)⟩,
       some p.1, some p.2)

/-- PointSet.get_best_threshold: raises unless get_best_gain has recorded a
winning feature; then returns the stored threshold (REAL), the no-threshold
sentinel None (BOOLEAN), or the stored category (CLASSES). -/
def PointSet.get_best_threshold (ps : PointSet) : Except String (Option ℚ) :=
  match ps.selected_feature_id with
  | none => Except.error ("Please call get_best_gain() first")
  | some fid =>
    match ps.types.getD fid FeaturesTypes.BOOLEAN with
    | FeaturesTypes.REAL => Except.ok ps.threshold
    | FeaturesTypes.BOOLEAN => Except.ok none
    | FeaturesTypes.CLASSES => Except.ok ps.category_id

/-- A tree node exactly as the Python object stores it: height, parameters,
operation counter, point set, the three (possibly stale) split fields, and
the two optional children.  Python never deletes the left/right attributes,
so a node collapsed to a leaf keeps its old children; all operations guard on
h and never read them then. -/
inductive Tree where
  | mk (h min_split_points : ℕ) (beta : ℚ) (counter : ℕ) (points : PointSet)
      (feature_id : Option ℕ) (feature_threshold : Option ℚ)
      (feature_split : Option (List ℚ × List ℚ))
      (left right : Option Tree) : Tree

def Tree.h : Tree → ℕ
  | .mk h _ _ _ _ _ _ _ _ _ => h

def Tree.min_split_points : Tree → ℕ
  | .mk _ m _ _ _ _ _ _ _ _ => m

def Tree.beta : Tree → ℚ
  | .mk _ _ b _ _ _ _ _ _ _ => b

def Tree.counter : Tree → ℕ
  | .mk _ _ _ c _ _ _ _ _ _ => c

def Tree.points : Tree → PointSet
  | .mk _ _ _ _ p _ _ _ _ _ => p

def Tree.feature_id : Tree → Option ℕ
  | .mk _ _ _ _ _ f _ _ _ _ => f

def Tree.feature_threshold : Tree → Option ℚ
  | .mk _ _ _ _ _ _ t _ _ _ => t

def Tree.feature_split : Tree → Option (List ℚ × List ℚ)
  | .mk _ _ _ _ _ _ _ s _ _ => s

def Tree.left : Tree → Option Tree
  | .mk _ _ _ _ _ _ _ _ l _ => l

def Tree.right : Tree → Option Tree
  | .mk _ _ _ _ _ _ _ _ _ r => r

/-- Unwrap get_best_threshold where the source calls it right after a
successful get_best_gain; the error branch is unreachable there because
selected_feature_id was just set. -/
def exceptValue (e : Except String (Option ℚ)) : Option ℚ :=
  match e with
  | Except.ok v => v
  | Except.error _ => none

/-- Tree.build_tree together with the recursive Tree.__init__ calls it makes
for the children, by recursion on the height.  The node's current fields are
threaded through because build_tree overwrites feature_id always but
feature_threshold / feature_split only on the matching type branch, keeps the
old children on both leaf-collapse paths, and resets the counter first thing.
At height 0 the body of build_tree is only the counter reset; a child
constructed at height 0 (fresh fields, counter 0) coincides with __init__
not calling build_tree at all. -/
def build_rec (msp : ℕ) (beta : ℚ) : ℕ → PointSet → Option ℕ → Option ℚ →
    Option (List ℚ × List ℚ) → Option Tree → Option Tree → Tree
  | 0, ps, fid, fthr, fsp, lo, ro => Tree.mk 0 msp beta 0 ps fid fthr fsp lo ro
  | h + 1, ps, fid, fthr, fsp, lo, ro =>
    let r := ps.get_best_gain (some msp)
    let ps1 := r.1
    match r.2.1 with
    | none => Tree.mk 0 msp beta 0 ps1 fid fthr fsp lo ro
    | some feature_id =>
      let threshold := exceptValue ps1.get_best_threshold
      let f_values := ps1.features.map (fun p => p.getD feature_id 0)
      let is_continous : Bool :=
        if ps1.types.getD feature_id FeaturesTypes.BOOLEAN = FeaturesTypes.REAL
        then true else false
      let split : List ℚ × List ℚ :=
        match threshold with
        | some thr => ([thr], sortedUnique (f_values.filter (fun f => if f = thr then false else true)))
        | none => ([0], [1])
      let fthr2 := if is_continous then threshold else fthr
      let fsp2 := if is_continous then fsp else some split
      let goesLeft : List ℚ → Bool := fun point =>
        if is_continous then
          (if point.getD feature_id 0 < threshold.getD 0 then true else false)
        else
          (if point.getD feature_id 0 ∈ split.1 then true else false)
      let pairs := ps1.features.zip ps1.labels
      let leftPairs := pairs.filter (fun q => goesLeft q.1)
      let rightPairs := pairs.filter (fun q => !goesLeft q.1)
      if leftPairs.length < msp ∨ rightPairs.length < msp then
        Tree.mk 0 msp beta 0 ps1 (some feature_id) fthr2 fsp2 lo ro
      else
        Tree.mk (h + 1) msp beta 0 ps1 (some feature_id) fthr2 fsp2
          (some (build_rec msp beta h
            (PointSet.init (leftPairs.map (fun q => q.1)) (leftPairs.map (fun q => q.2)) ps1.types)
            none none none none none))
          (some (build_rec msp beta h
            (PointSet.init (rightPairs.map (fun q => q.1)) (rightPairs.map (fun q => q.2)) ps1.types)
            none none none none none))

/-- Tree.build_tree on an existing node. -/
def Tree.build_tree (t : Tree) : Tree :=
  build_rec t.min_split_points t.beta t.h t.points t.feature_id t.feature_threshold
    t.feature_split t.left t.right

/-- Tree.__init__: a fresh point set and fresh split fields; build_tree runs
iff h > 0, and build_rec at 0 returns exactly the unbuilt fresh node. -/
def Tree.init (features : List (List ℚ)) (labels : List Bool) (types : List FeaturesTypes)
    (h : ℕ) (min_split_points : ℕ) (beta : ℚ) : Tree :=
  build_rec min_split_points beta h (PointSet.init features labels types)
    none none none none none

/-- The routing rule an internal node applies to a query point: the
feature_split == None test selects threshold routing (value < threshold goes
left), otherwise membership in split[0] goes left.  Shared verbatim by
decide, add_training_point and del_training_point. -/
def routeLeft (fid : Option ℕ) (fthr : Option ℚ) (fsp : Option (List ℚ × List ℚ))
    (features : List ℚ) : Bool :=
  match fsp with
  | none => if features.getD (fid.getD 0) 0 < fthr.getD 0 then true else false
  | some sp => if features.getD (fid.getD 0) 0 ∈ sp.1 then true else false

/-- Tree.decide: majority vote at a leaf (ties go to true), routing at an
internal node.  A missing child at positive height would be an
AttributeError in Python; it is unreachable for built trees and modelled as
false. -/
def Tree.decide : Tree → List ℚ → Bool
  | .mk 0 _ _ _ points _ _ _ _ _, _ =>
    let true_count := points.labels.countP (fun b => b)
    let false_count := points.labels.length - true_count
    if false_count ≤ true_count then true else false
  | .mk (_ + 1) _ _ _ _ fid fthr fsp lo ro, features =>
    if routeLeft fid fthr fsp features then
      match lo with
      | some c => c.decide features
      | none => false
    else
      match ro with
      | some c => c.decide features
      | none => false

/-- The local point-set update of add_training_point: append the new point
and label into a fresh PointSet (resetting the search caches), but only on a
node of positive height. -/
def addPoints (ps : PointSet) (h : ℕ) (features : List ℚ) (label : Bool) : PointSet :=
  if 0 < h then
    PointSet.init (ps.features ++ [features]) (ps.labels ++ [label]) ps.types
  else ps

/-- The matching rule of del_training_point: all(f == point[j] for j, f in
enumerate(features)), i.e. the given feature list must agree with the stored
point position by position.  Python would raise IndexError if the stored
point were shorter; that case (unreachable for same-width data) is false
here. -/
def matchesFeat : List ℚ → List ℚ → Bool
  | [], _ => true
  | f :: fs, p :: ps' => if f = p then matchesFeat fs ps' else false
  | _ :: _, [] => false

/-- Index of the first stored point matching the given features (the loop
breaks after the first hit). -/
def firstMatchIdx (features : List ℚ) : List (List ℚ) → Option ℕ
  | [] => none
  | p :: rest =>
    if matchesFeat features p then some 0
    else (firstMatchIdx features rest).map (fun i => i + 1)

/-- The local point-set update of del_training_point: drop the first matching
point (and the label at the same index) into a fresh PointSet; on a node of
positive height a fresh PointSet is built even when nothing matched, and a
height-0 node never mutates its points. -/
def delPoints (ps : PointSet) (h : ℕ) (features : List ℚ) : PointSet :=
  if 0 < h then
    match firstMatchIdx features ps.features with
    | some i => PointSet.init (ps.features.eraseIdx i) (ps.labels.eraseIdx i) ps.types
    | none => PointSet.init ps.features ps.labels ps.types
  else ps

/-- Tree.add_training_point: bump the counter, append locally when h > 0,
rebuild in place when counter ≥ beta · (current point count) (the dead
indices_to_remove computation of the source is omitted), stop at a leaf,
otherwise route by the existing split and recurse. -/
def Tree.add_training_point : Tree → List ℚ → Bool → Tree
  | .mk h msp beta counter points fid fthr fsp lo ro, features, label =>
    let counter1 := counter + 1
    let points1 := addPoints points h features label
    if (counter1 : ℚ) ≥ beta * (points1.features.length : ℚ) then
      Tree.build_tree (Tree.mk h msp beta 0 points1 fid fthr fsp lo ro)
    else if h = 0 then Tree.mk h msp beta counter1 points1 fid fthr fsp lo ro
    else if routeLeft fid fthr fsp features then
      Tree.mk h msp beta counter1 points1 fid fthr fsp
        (match lo with
          | some c => some (c.add_training_point features label)
          | none => none) ro
    else
      Tree.mk h msp beta counter1 points1 fid fthr fsp lo
        (match ro with
          | some c => some (c.add_training_point features label)
          | none => none)

/-- Tree.del_training_point: bump the counter, remove the first point whose
features equal the given ones when h > 0, rebuild in place when counter ≥
beta · (post-removal point count), stop at a leaf, otherwise route by the
existing split and recurse.  The label argument is never consulted. -/
def Tree.del_training_point : Tree → List ℚ → Bool → Tree
  | .mk h msp beta counter points fid fthr fsp lo ro, features, label =>
    let counter1 := counter + 1
    let points1 := delPoints points h features
    if (counter1 : ℚ) ≥ beta * (points1.features.length : ℚ) then
      Tree.build_tree (Tree.mk h msp beta 0 points1 fid fthr fsp lo ro)
    else if h = 0 then Tree.mk h msp beta counter1 points1 fid fthr fsp lo ro
    else if routeLeft fid fthr fsp features then
      Tree.mk h msp beta counter1 points1 fid fthr fsp
        (match lo with
          | some c => some (c.del_training_point features label)
          | none => none) ro
    else
      Tree.mk h msp beta counter1 points1 fid fthr fsp lo
        (match ro with
          | some c => some (c.del_training_point features label)
          | none => none)

/-! Derived observables used to state the claims. -/

/-- The number of points stored at the node itself. -/
def Tree.pointCount (t : Tree) : ℕ := t.points.features.length

/-- The predictions of the leaves reachable by decide, in left-to-right
order; each entry is the leaf's majority vote exactly as decide computes
it. -/
def Tree.leafPredictions : Tree → List Bool
  | .mk 0 _ _ _ points _ _ _ _ _ =>
    let true_count := points.labels.countP (fun b => b)
    let false_count := points.labels.length - true_count
    [if false_count ≤ true_count then true else false]
  | .mk (_ + 1) _ _ _ _ _ _ _ lo ro =>
    (match lo with | some c => c.leafPredictions | none => []) ++
    (match ro with | some c => c.leafPredictions | none => [])

/-- Does an add_training_point call trigger a rebuild anywhere on its path?
Same recursion and same condition as add_training_point. -/
def Tree.addRebuilds : Tree → List ℚ → Bool → Bool
  | .mk h _ beta counter points fid fthr fsp lo ro, features, label =>
    let counter1 := counter + 1
    let points1 := addPoints points h features label
    if (counter1 : ℚ) ≥ beta * (points1.features.length : ℚ) then true
    else if h = 0 then false
    else if routeLeft fid fthr fsp features then
      match lo with
      | some c => c.addRebuilds features label
      | none => false
    else
      match ro with
      | some c => c.addRebuilds features label
      | none => false

/-- Does a del_training_point call trigger a rebuild anywhere on its path?
Same recursion and same condition as del_training_point. -/
def Tree.delRebuilds : Tree → List ℚ → Bool → Bool
  | .mk h _ beta counter points fid fthr fsp lo ro, features, label =>
    let counter1 := counter + 1
    let points1 := delPoints points h features
    if (counter1 : ℚ) ≥ beta * (points1.features.length : ℚ) then true
    else if h = 0 then false
    else if routeLeft fid fthr fsp features then
      match lo with
      | some c => c.delRebuilds features label
      | none => false
    else
      match ro with
      | some c => c.delRebuilds features label
      | none => false

/-- Replace only the operation counter of a node. -/
def Tree.setCounter : Tree → ℕ → Tree
  | .mk h msp beta _ points fid fthr fsp lo ro, c =>
    Tree.mk h msp beta c points fid fthr fsp lo ro

/-- A candidate split the loop can actually record: neither side empty and
the min_split_points floor respected on both sides. -/
def usableCandidate (msp : Option ℕ) (c : Candidate) : Bool :=
  if c.c00 + c.c01 = 0 ∨ c.c10 + c.c11 = 0 then false
  else
    match msp with
    | some m => if c.c00 + c.c01 < m ∨ c.c10 + c.c11 < m then false else true
    | none => true

/-! Concrete inputs used by the claim theorems, their witnesses and
counterexamples. -/

/-- Concrete two-point tree with beta = 0, in the shape build produces for a
boolean split. -/
def tC3 : Tree :=
  Tree.mk 1 1 0 0 (PointSet.init [[0], [1]] [false, true] [FeaturesTypes.BOOLEAN])
    (some 0) none (some ([0], [1]))
    (some (Tree.mk 0 1 0 0 (PointSet.init [[0]] [false] [FeaturesTypes.BOOLEAN])
      none none none none none))
    (some (Tree.mk 0 1 0 0 (PointSet.init [[1]] [true] [FeaturesTypes.BOOLEAN])
      none none none none none))

/-- A height-0 leaf with beta = 2 after one absorbed insertion: its counter
is 1. -/
def tC9 : Tree :=
  (Tree.init [[1]] [true] [FeaturesTypes.BOOLEAN] 0 1 2).add_training_point [1] true

/-- Concrete height-0 leaf with nonzero counter. -/
def tC9w : Tree :=
  Tree.mk 0 2 (1 / 2) 3
    (PointSet.init [[0], [1]] [false, true] [FeaturesTypes.BOOLEAN])
    none none none none none

/-- A three-point REAL column with a duplicated value: only one candidate
cut. -/
def psC6 : PointSet :=
  PointSet.init [[1], [1], [2]] [true, false, false] [FeaturesTypes.REAL]

/-- Concrete two-point boolean tree with beta = 10, so the next operations
are absorbed without a rebuild. -/
def tC2 : Tree :=
  Tree.mk 1 1 10 0 (PointSet.init [[0], [1]] [false, true] [FeaturesTypes.BOOLEAN])
    (some 0) none (some ([0], [1]))
    (some (Tree.mk 0 1 10 0 (PointSet.init [[0]] [false] [FeaturesTypes.BOOLEAN])
      none none none none none))
    (some (Tree.mk 0 1 10 0 (PointSet.init [[1]] [true] [FeaturesTypes.BOOLEAN])
      none none none none none))

/-- The concrete scenario's tree: four points over one continuous and one
categorical feature (the categories true_cat, false_cat are rendered 1, 0),
maxHeight 1, minSplitPoints 1. -/
def tC1 : Tree :=
  Tree.init [[1 / 10, 1], [1 / 5, 1], [9 / 10, 0], [4 / 5, 0]]
    [true, true, false, false] [FeaturesTypes.REAL, FeaturesTypes.CLASSES] 1 1 0

/-! Helper lemmas. -/

/-- Structural induction for Tree through its optional children. -/
theorem treeRecAux {motive : Tree → Prop}
    (H : ∀ h msp beta counter points fid fthr fsp lo ro,
        (∀ c, lo = some c → motive c) → (∀ c, ro = some c → motive c) →
        motive (Tree.mk h msp beta counter points fid fthr fsp lo ro)) :
    ∀ t, motive t := by
  have key : ∀ n : ℕ, ∀ t : Tree, sizeOf t ≤ n → motive t := by
    intro n
    induction n with
    | zero =>
      intro t ht
      exact absurd ht (by cases t; simp)
    | succ n ih =>
      intro t ht
      cases t with
      | mk h msp beta counter points fid fthr fsp lo ro =>
        apply H
        · intro c hc
          apply ih
          subst hc
          simp at ht
          omega
        · intro c hc
          apply ih
          subst hc
          simp at ht
          omega
  intro t
  exact key (sizeOf t) t le_rfl

theorem count_true_eq_countP (l : List Bool) : l.count true = l.countP (fun b => b) := by
  induction l with
  | nil => rfl
  | cons a l ih => cases a <;> simp [List.count_cons, List.countP_cons, ih]

theorem count_false_eq (l : List Bool) :
    l.count false = l.length - l.countP (fun b => b) := by
  induction l with
  | nil => rfl
  | cons a l ih =>
    have hle : l.countP (fun b => b) ≤ l.length := List.countP_le_length _
    cases a <;> simp [List.count_cons, List.countP_cons, ih] <;> omega

/-! Claim theorems. -/

/-- C5: for every leaf node (height 0) and every query point, decide returns
true exactly when the number of false labels stored at the leaf is at most
the number of true labels, i.e. the prediction is the majority label with
ties resolved to true. -/
theorem C5_leaf_majority (t : Tree) (features : List ℚ) (ht : t.h = 0) :
    t.decide features = true ↔
      t.points.labels.count false ≤ t.points.labels.count true := by
  cases t with
  | mk h msp beta counter points fid fthr fsp lo ro =>
    have h0 : h = 0 := ht
    subst h0
    rw [count_true_eq_countP, count_false_eq]
    show (if points.labels.length - points.labels.countP (fun b => b) ≤
        points.labels.countP (fun b => b) then true else false) = true ↔ _
    split_ifs with hc
    · simp [Tree.points, hc]
    · simp [Tree.points, hc]

/-- Witness for C5 at a concrete one-point leaf. -/
theorem C5_leaf_majority_witness :
    (Tree.init [[1]] [true] [FeaturesTypes.BOOLEAN] 0 1 0).decide [1] = true ↔
      (Tree.init [[1]] [true] [FeaturesTypes.BOOLEAN] 0 1 0).points.labels.count false ≤
        (Tree.init [[1]] [true] [FeaturesTypes.BOOLEAN] 0 1 0).points.labels.count true :=
  C5_leaf_majority (Tree.init [[1]] [true] [FeaturesTypes.BOOLEAN] 0 1 0) [1] rfl

theorem counter_build_rec (msp : ℕ) (beta : ℚ) (h : ℕ) (ps : PointSet) (fid : Option ℕ)
    (fthr : Option ℚ) (fsp : Option (List ℚ × List ℚ)) (lo ro : Option Tree) :
    (build_rec msp beta h ps fid fthr fsp lo ro).counter = 0 := by
  cases h with
  | zero => rfl
  | succ n =>
    rw [build_rec]
    dsimp only
    split
    · rfl
    · split_ifs <;> rfl

/-- C3: when a node's beta is 0 the amortized-rebuild condition counter ≥
beta · pointCount holds on every add_training_point and del_training_point
reaching it, so each operation resets the counter and reduces to build_tree
of the locally updated node — it never recurses into the children — and the
resulting counter is 0. -/
theorem C3_beta_zero_forces_rebuild (t : Tree) (features : List ℚ) (label : Bool)
    (hb : t.beta = 0) :
    t.addRebuilds features label = true ∧
    t.add_training_point features label =
      Tree.build_tree (Tree.mk t.h t.min_split_points t.beta 0
        (addPoints t.points t.h features label)
        t.feature_id t.feature_threshold t.feature_split t.left t.right) ∧
    (t.add_training_point features label).counter = 0 ∧
    t.delRebuilds features label = true ∧
    t.del_training_point features label =
      Tree.build_tree (Tree.mk t.h t.min_split_points t.beta 0
        (delPoints t.points t.h features)
        t.feature_id t.feature_threshold t.feature_split t.left t.right) ∧
    (t.del_training_point features label).counter = 0 := by
  cases t with
  | mk h msp beta counter points fid fthr fsp lo ro =>
    have hb0 : beta = 0 := hb
    subst hb0
    have hadd : ((counter + 1 : ℕ) : ℚ) ≥
        0 * ((addPoints points h features label).features.length : ℚ) := by
      rw [zero_mul]
      exact Nat.cast_nonneg _
    have hdel : ((counter + 1 : ℕ) : ℚ) ≥
        0 * ((delPoints points h features).features.length : ℚ) := by
      rw [zero_mul]
      exact Nat.cast_nonneg _
    refine ⟨?_, ?_, ?_, ?_, ?_, ?_⟩
    · rw [Tree.addRebuilds.eq_def]
      dsimp only
      rw [if_pos hadd]
    · rw [Tree.add_training_point.eq_def]
      dsimp only
      rw [if_pos hadd]
      rfl
    · rw [Tree.add_training_point.eq_def]
      dsimp only
      rw [if_pos hadd]
      exact counter_build_rec msp 0 h (addPoints points h features label) fid fthr fsp lo ro
    · rw [Tree.delRebuilds.eq_def]
      dsimp only
      rw [if_pos hdel]
    · rw [Tree.del_training_point.eq_def]
      dsimp only
      rw [if_pos hdel]
      rfl
    · rw [Tree.del_training_point.eq_def]
      dsimp only
      rw [if_pos hdel]
      exact counter_build_rec msp 0 h (delPoints points h features) fid fthr fsp lo ro

/-- Witness for C3 at the concrete tree tC3. -/
theorem C3_witness :
    tC3.addRebuilds [1] true = true ∧
    tC3.add_training_point [1] true =
      Tree.build_tree (Tree.mk tC3.h tC3.min_split_points tC3.beta 0
        (addPoints tC3.points tC3.h [1] true)
        tC3.feature_id tC3.feature_threshold tC3.feature_split tC3.left tC3.right) ∧
    (tC3.add_training_point [1] true).counter = 0 ∧
    tC3.delRebuilds [1] true = true ∧
    tC3.del_training_point [1] true =
      Tree.build_tree (Tree.mk tC3.h tC3.min_split_points tC3.beta 0
        (delPoints tC3.points tC3.h [1])
        tC3.feature_id tC3.feature_threshold tC3.feature_split tC3.left tC3.right) ∧
    (tC3.del_training_point [1] true).counter = 0 :=
  C3_beta_zero_forces_rebuild tC3 [1] true rfl

/-- C9 amended: once a node's height is 0 it stays a leaf under every
operation, and the only field any operation on the node itself can change is
its operation counter: build_tree resets the counter to 0 (so it is not a
full no-op), and add_training_point / del_training_point leave the point
set, split fields, height and children untouched, changing the counter
only. -/
theorem C9_leaf_stable (t : Tree) (ht : t.h = 0) :
    Tree.build_tree t = t.setCounter 0 ∧
    (∀ features label, ∃ c, t.add_training_point features label = t.setCounter c) ∧
    (∀ features label, ∃ c, t.del_training_point features label = t.setCounter c) := by
  cases t with
  | mk h msp beta counter points fid fthr fsp lo ro =>
    have h0 : h = 0 := ht
    subst h0
    refine ⟨rfl, ?_, ?_⟩
    · intro features label
      rw [Tree.add_training_point.eq_def]
      dsimp only
      split_ifs with h1 h2 h3
      · exact ⟨0, rfl⟩
      · exact ⟨counter + 1, rfl⟩
      · exact absurd rfl h2
      · exact absurd rfl h2
    · intro features label
      rw [Tree.del_training_point.eq_def]
      dsimp only
      split_ifs with h1 h2 h3
      · exact ⟨0, rfl⟩
      · exact ⟨counter + 1, rfl⟩
      · exact absurd rfl h2
      · exact absurd rfl h2

theorem tC9_eval : tC9 = Tree.mk 0 1 2 1
    (PointSet.init [[1]] [true] [FeaturesTypes.BOOLEAN]) none none none none none := by
  rw [tC9]
  show (Tree.mk 0 1 2 0 (PointSet.init [[1]] [true] [FeaturesTypes.BOOLEAN])
    none none none none none).add_training_point [1] true = _
  rw [Tree.add_training_point.eq_def]
  dsimp only
  split_ifs with h1 h2 h3
  · exfalso
    rw [addPoints] at h1
    norm_num [PointSet.init] at h1
  · rfl
  · exact absurd rfl h2
  · exact absurd rfl h2

/-- C9 counterexample: build_tree is not a no-op on a height-0 node — on the
reachable leaf tC9 (counter 1) it resets the counter to 0, so the rebuilt
node differs from the input. -/
theorem C9_counterexample : Tree.build_tree tC9 ≠ tC9 := by
  rw [tC9_eval]
  intro hEq
  have h2 : (0 : ℕ) = 1 := congrArg Tree.counter hEq
  exact absurd h2 (by omega)

/-- Witness for C9 at the concrete leaf tC9w. -/
theorem C9_witness :
    Tree.build_tree tC9w = tC9w.setCounter 0 ∧
    (∀ features label, ∃ c, tC9w.add_training_point features label = tC9w.setCounter c) ∧
    (∀ features label, ∃ c, tC9w.del_training_point features label = tC9w.setCounter c) :=
  C9_leaf_stable tC9w rfl

/-- C10: del_training_point never consults its label argument: deleting the
same feature tuple with any two labels produces identical trees. -/
theorem C10_del_label_independent (t : Tree) (features : List ℚ) (l1 l2 : Bool) :
    t.del_training_point features l1 = t.del_training_point features l2 := by
  induction t using treeRecAux with
  | H h msp beta counter points fid fthr fsp lo ro ihl ihr =>
    rw [Tree.del_training_point.eq_def, Tree.del_training_point.eq_def]
    dsimp only
    split_ifs with h1 h2 h3
    · rfl
    · rfl
    · cases lo with
      | none => rfl
      | some c =>
        dsimp only
        rw [ihl c rfl]
    · cases ro with
      | none => rfl
      | some c =>
        dsimp only
        rw [ihr c rfl]

theorem get_best_gain_of_res_none (ps : PointSet) (msp : Option ℕ)
    (h : ps.features.length = 0 ∨ (gainFold ps msp).res = none) :
    ps.get_best_gain msp = (ps, none, none) := by
  rw [PointSet.get_best_gain]
  rcases h with h | h
  · rw [if_pos h]
  · split_ifs with hl
    · rfl
    · rw [h]

theorem get_best_gain_of_res_some (ps : PointSet) (msp : Option ℕ) (p : ℕ × ℚ)
    (hlen : ¬ ps.features.length = 0) (h : (gainFold ps msp).res = some p) :
    ps.get_best_gain msp =
      (⟨ps.types, ps.features, ps.labels,
        (if ps.types.getD p.1 FeaturesTypes.BOOLEAN = FeaturesTypes.REAL
          then (gainFold ps msp).threshold_found else ps.threshold),
        some p.1,
        (if ps.types.getD p.1 FeaturesTypes.BOOLEAN = FeaturesTypes.CLASSES
          then (gainFold ps msp).category_id_found else ps.category_id)⟩,
       some p.1, some p.2) := by
  rw [PointSet.get_best_gain, if_neg hlen, h]

/-- C4 amended: get_best_threshold fails with the invalid-state error if and
only if no winning feature is recorded on the point set
(selected_feature_id unset).  That is the case before any get_best_gain
call, but it persists when get_best_gain returns the (none, none) sentinel —
so failing is not equivalent to being called before get_best_gain has run at
least once.  After a get_best_gain call that reports a winner,
get_best_threshold returns the stored threshold for a continuous winner, the
stored category for a categorical winner, and the no-threshold sentinel none
for a boolean winner. -/
theorem C4_threshold_error_iff (ps : PointSet) (msp : Option ℕ) :
    ((∃ e, ps.get_best_threshold = Except.error e) ↔ ps.selected_feature_id = none) ∧
    ((ps.get_best_gain msp).2.1 = none → (ps.get_best_gain msp).1 = ps) ∧
    (∀ fid, (ps.get_best_gain msp).2.1 = some fid →
      (ps.get_best_gain msp).1.get_best_threshold =
        Except.ok (match (ps.get_best_gain msp).1.types.getD fid FeaturesTypes.BOOLEAN with
          | FeaturesTypes.REAL => (ps.get_best_gain msp).1.threshold
          | FeaturesTypes.BOOLEAN => none
          | FeaturesTypes.CLASSES => (ps.get_best_gain msp).1.category_id)) := by
  refine ⟨?_, ?_, ?_⟩
  · cases hsel : ps.selected_feature_id with
    | none =>
      simp only [PointSet.get_best_threshold, hsel]
      exact iff_of_true ⟨_, rfl⟩ trivial
    | some fid =>
      simp only [PointSet.get_best_threshold, hsel]
      cases ps.types.getD fid FeaturesTypes.BOOLEAN <;> simp
  · intro hnone
    by_cases hlen : ps.features.length = 0
    · rw [get_best_gain_of_res_none ps msp (Or.inl hlen)]
    · cases hres : (gainFold ps msp).res with
      | none => rw [get_best_gain_of_res_none ps msp (Or.inr hres)]
      | some p =>
        rw [get_best_gain_of_res_some ps msp p hlen hres] at hnone
        simp at hnone
  · intro fid hsome
    by_cases hlen : ps.features.length = 0
    · rw [get_best_gain_of_res_none ps msp (Or.inl hlen)] at hsome
      simp at hsome
    · cases hres : (gainFold ps msp).res with
      | none =>
        rw [get_best_gain_of_res_none ps msp (Or.inr hres)] at hsome
        simp at hsome
      | some p =>
        rw [get_best_gain_of_res_some ps msp p hlen hres] at hsome ⊢
        have hp : p.1 = fid := by simpa using hsome
        rw [hp]
        simp only [PointSet.get_best_threshold]
        cases htype : ps.types.getD fid FeaturesTypes.BOOLEAN <;> simp [htype]

/-- C4 counterexample: get_best_gain has been run (on the empty point set,
where it returns the sentinel and leaves the state untouched), yet
get_best_threshold afterwards still raises the invalid-state error — failure
is not equivalent to being called before the first get_best_gain run. -/
theorem C4_counterexample :
    ((PointSet.init [] [] []).get_best_gain (some 1)).1.get_best_threshold =
      Except.error ("Please call get_best_gain() first") := rfl

theorem C4_witness_run :
    ((PointSet.init [[0], [1]] [false, true] [FeaturesTypes.BOOLEAN]).get_best_gain
      (some 1)).2.1 = some 0 := by
  norm_num [PointSet.get_best_gain, gainFold, PointSet.ncols, PointSet.init,
    columnCandidates, countSplit, stepCandidate, acceptCandidate, recordCandidate,
    PointSet.get_gini, List.range_succ]

/-- Witness for C4: a successful split search on a two-point boolean column,
after which get_best_threshold returns the boolean no-threshold sentinel. -/
theorem C4_witness :
    ((PointSet.init [[0], [1]] [false, true] [FeaturesTypes.BOOLEAN]).get_best_gain
        (some 1)).1.get_best_threshold =
      Except.ok (match ((PointSet.init [[0], [1]] [false, true]
            [FeaturesTypes.BOOLEAN]).get_best_gain (some 1)).1.types.getD 0
            FeaturesTypes.BOOLEAN with
        | FeaturesTypes.REAL =>
          ((PointSet.init [[0], [1]] [false, true]
            [FeaturesTypes.BOOLEAN]).get_best_gain (some 1)).1.threshold
        | FeaturesTypes.BOOLEAN => none
        | FeaturesTypes.CLASSES =>
          ((PointSet.init [[0], [1]] [false, true]
            [FeaturesTypes.BOOLEAN]).get_best_gain (some 1)).1.category_id) :=
  (C4_threshold_error_iff (PointSet.init [[0], [1]] [false, true]
    [FeaturesTypes.BOOLEAN]) (some 1)).2.2 0 C4_witness_run

theorem acceptCandidate_reject (m : ℕ) (i : ℕ) (g : ℚ) (st : GainState) (c : Candidate)
    (hviol : c.c00 + c.c01 < m ∨ c.c10 + c.c11 < m) :
    acceptCandidate (some m) i g st c = st := by
  rw [acceptCandidate]
  rw [if_pos hviol]

theorem stepCandidate_unusable (gp : ℚ) (total : ℕ) (msp : Option ℕ) (i : ℕ)
    (st : GainState) (c : Candidate) (h : usableCandidate msp c = false) :
    stepCandidate gp total msp i st c = st := by
  rw [usableCandidate.eq_def] at h
  rw [stepCandidate.eq_def]
  split_ifs at h ⊢ with h1
  · rfl
  · cases msp with
    | none => simp at h
    | some m =>
      dsimp only at h
      split_ifs at h with h2
      · cases hr : st.res with
        | none => exact acceptCandidate_reject m i _ st c h2
        | some p =>
          dsimp only
          split_ifs with h3
          · exact acceptCandidate_reject m i _ st c h2
          · rfl

theorem foldl_unusable (gp : ℚ) (total : ℕ) (msp : Option ℕ) (i : ℕ)
    (L : List Candidate) (st : GainState)
    (h : ∀ c ∈ L, usableCandidate msp c = false) :
    L.foldl (stepCandidate gp total msp i) st = st := by
  induction L generalizing st with
  | nil => rfl
  | cons c L ih =>
    rw [List.foldl_cons, stepCandidate_unusable gp total msp i st c
      (h c (List.mem_cons_self c L))]
    exact ih st (fun d hd => h d (List.mem_cons_of_mem c hd))

theorem foldl_cols_unusable (ps : PointSet) (msp : Option ℕ) (is : List ℕ) (st : GainState)
    (h : ∀ i ∈ is, ∀ c ∈ columnCandidates ps i, usableCandidate msp c = false) :
    is.foldl (fun st i => (columnCandidates ps i).foldl
      (stepCandidate ps.get_gini ps.labels.length msp i) st) st = st := by
  induction is generalizing st with
  | nil => rfl
  | cons j is ih =>
    rw [List.foldl_cons, foldl_unusable _ _ _ _ _ _ (h j (List.mem_cons_self j is))]
    exact ih st (fun i hi c hc => h i (List.mem_cons_of_mem j hi) c hc)

theorem gainFold_unusable (ps : PointSet) (msp : Option ℕ)
    (h : ∀ i ∈ List.range ps.ncols, ∀ c ∈ columnCandidates ps i,
      usableCandidate msp c = false) :
    gainFold ps msp = ⟨none, none, none⟩ :=
  foldl_cols_unusable ps msp (List.range ps.ncols) ⟨none, none, none⟩ h

/-- C7: get_best_gain returns the sentinel pair (none, none) and leaves the
point set untouched both when the point set is empty and when no feature
yields a usable split (every candidate has an empty side or violates the
min-split-points floor), so callers cannot distinguish the two cases from
the return value. -/
theorem C7_sentinel_no_split (ps : PointSet) (msp : Option ℕ)
    (h : ps.features = [] ∨
      ∀ i ∈ List.range ps.ncols, ∀ c ∈ columnCandidates ps i,
        usableCandidate msp c = false) :
    ps.get_best_gain msp = (ps, none, none) := by
  rcases h with h | h
  · exact get_best_gain_of_res_none ps msp (Or.inl (by rw [h]; rfl))
  · refine get_best_gain_of_res_none ps msp (Or.inr ?_)
    rw [gainFold_unusable ps msp h]

/-- Witness for C7: a nonempty one-point set whose only candidate has an
empty below side, so the sentinel comes from an unusable (not empty) input. -/
theorem C7_witness :
    (PointSet.init [[1]] [true] [FeaturesTypes.BOOLEAN]).get_best_gain (some 1) =
      ((PointSet.init [[1]] [true] [FeaturesTypes.BOOLEAN]), none, none) :=
  C7_sentinel_no_split (PointSet.init [[1]] [true] [FeaturesTypes.BOOLEAN]) (some 1)
    (Or.inr (by decide))

theorem gini_closed_form (ps : PointSet) (hn : 0 < ps.labels.length) :
    ps.get_gini = 2 * (ps.labels.countP (fun b => b) : ℚ)
      * ((ps.labels.length : ℚ) - (ps.labels.countP (fun b => b) : ℚ))
      / (ps.labels.length : ℚ) ^ 2 := by
  have hpn : ps.labels.countP (fun b => b) ≤ ps.labels.length := List.countP_le_length _
  have hN : ((ps.labels.length : ℚ)) ≠ 0 := by
    exact_mod_cast Nat.pos_iff_ne_zero.mp hn
  rw [PointSet.get_gini]
  rw [Nat.cast_sub hpn]
  field_simp
  ring

theorem gini_form_bounds (N x : ℚ) (hN : 0 < N) (hx0 : 0 ≤ x) (hxN : x ≤ N) :
    0 ≤ 2 * x * (N - x) / N ^ 2 ∧ 2 * x * (N - x) / N ^ 2 ≤ 1 / 2 ∧
    (2 * x * (N - x) / N ^ 2 = 0 ↔ (x = 0 ∨ x = N)) ∧
    (2 * x * (N - x) / N ^ 2 = 1 / 2 ↔ N = 2 * x) := by
  have hN2 : (0 : ℚ) < N ^ 2 := by positivity
  refine ⟨?_, ?_, ?_, ?_⟩
  · apply div_nonneg
    · nlinarith
    · nlinarith
  · rw [div_le_iff hN2]
    nlinarith [sq_nonneg (N - 2 * x)]
  · rw [div_eq_zero_iff]
    constructor
    · rintro (h | h)
      · rcases mul_eq_zero.mp h with h' | h'
        · rcases mul_eq_zero.mp h' with h'' | h''
          · norm_num at h''
          · exact Or.inl h''
        · exact Or.inr (by linarith)
      · exact absurd h (ne_of_gt hN2)
    · rintro (h | h)
      · left
        rw [h]
        ring
      · left
        rw [h]
        ring
  · rw [div_eq_iff (ne_of_gt hN2)]
    constructor
    · intro h
      have h3 : (N - 2 * x) ^ 2 = 0 := by nlinarith
      have h4 : N - 2 * x = 0 := by
        exact pow_eq_zero_iff (by norm_num) |>.mp h3
      linarith
    · intro h
      rw [h]
      ring

/-- C8: on every point set with at least one label the Gini impurity lies in
[0, 1/2]; it equals 0 exactly when all labels are identical, and equals 1/2
exactly when exactly half of the labels are true. -/
theorem C8_gini_range (ps : PointSet) (hne : ps.labels ≠ []) :
    0 ≤ ps.get_gini ∧ ps.get_gini ≤ 1 / 2 ∧
    (ps.get_gini = 0 ↔ ((∀ b ∈ ps.labels, b = true) ∨ (∀ b ∈ ps.labels, b = false))) ∧
    (ps.get_gini = 1 / 2 ↔ 2 * ps.labels.countP (fun b => b) = ps.labels.length) := by
  have hn : 0 < ps.labels.length := List.length_pos.mpr hne
  have hpn : ps.labels.countP (fun b => b) ≤ ps.labels.length := List.countP_le_length _
  have hN : (0 : ℚ) < (ps.labels.length : ℚ) := by exact_mod_cast hn
  have hx0 : (0 : ℚ) ≤ (ps.labels.countP (fun b => b) : ℚ) := Nat.cast_nonneg _
  have hxN : ((ps.labels.countP (fun b => b) : ℚ)) ≤ (ps.labels.length : ℚ) := by
    exact_mod_cast hpn
  obtain ⟨h1, h2, h3, h4⟩ := gini_form_bounds _ _ hN hx0 hxN
  rw [gini_closed_form ps hn]
  refine ⟨h1, h2, ?_, ?_⟩
  · rw [h3]
    constructor
    · rintro (h | h)
      · right
        intro b hb
        have hp0 : ps.labels.countP (fun b => b) = 0 := by exact_mod_cast h
        have hb' := List.countP_eq_zero.mp hp0 b hb
        simpa using hb'
      · left
        intro b hb
        have hpl : ps.labels.countP (fun b => b) = ps.labels.length := by exact_mod_cast h
        have hb' := List.countP_eq_length.mp hpl b hb
        simpa using hb'
    · rintro (h | h)
      · right
        have hc : ps.labels.countP (fun b => b) = ps.labels.length :=
          List.countP_eq_length.mpr (fun b hb => by simp [h b hb])
        exact_mod_cast hc
      · left
        have hc : ps.labels.countP (fun b => b) = 0 :=
          List.countP_eq_zero.mpr (fun b hb => by simp [h b hb])
        exact_mod_cast hc
  · rw [h4]
    constructor
    · intro h
      exact_mod_cast h.symm
    · intro h
      exact_mod_cast h.symm

/-- Witness for C8 at a concrete half-true label list. -/
theorem C8_witness :
    0 ≤ (PointSet.init [] [true, false] []).get_gini ∧
    (PointSet.init [] [true, false] []).get_gini ≤ 1 / 2 ∧
    ((PointSet.init [] [true, false] []).get_gini = 0 ↔
      ((∀ b ∈ (PointSet.init [] [true, false] []).labels, b = true) ∨
        (∀ b ∈ (PointSet.init [] [true, false] []).labels, b = false))) ∧
    ((PointSet.init [] [true, false] []).get_gini = 1 / 2 ↔
      2 * (PointSet.init [] [true, false] []).labels.countP (fun b => b) =
        (PointSet.init [] [true, false] []).labels.length) :=
  C8_gini_range (PointSet.init [] [true, false] []) (by decide)

theorem getElem_of_drop_cons (G : List ℚ) (k : ℕ) (v : ℚ) (t : List ℚ)
    (h : G.drop k = v :: t) : G[k]? = some v := by
  have h0 : (G.drop k)[0]? = G[k + 0]? := List.getElem?_drop G k 0
  rw [h] at h0
  simpa using h0.symm

theorem realCandidatesAux_changes (G : List ℚ) :
    ∀ (l : List (ℚ × Bool)) (k : ℕ) (prev : Option ℚ) (c00 c01 c10 c11 : ℕ),
      l.map Prod.fst = G.drop k →
      (∀ pv, prev = some pv → 1 ≤ k ∧ G[k - 1]? = some pv) →
      ∀ c ∈ realCandidatesAux k prev c00 c01 c10 c11 l,
        1 ≤ c.pos ∧ ∃ a b, G[c.pos - 1]? = some a ∧ G[c.pos]? = some b ∧
          a ≠ b ∧ c.thr = some ((a + b) / 2) := by
  intro l
  induction l with
  | nil =>
    intro k prev c00 c01 c10 c11 hmap hprev c hc
    rw [realCandidatesAux] at hc
    simp at hc
  | cons q rest ih =>
    obtain ⟨v, lb⟩ := q
    intro k prev c00 c01 c10 c11 hmap hprev c hc
    have hdrop : G.drop k = v :: rest.map Prod.fst := by
      rw [← hmap]
      rfl
    have hGk : G[k]? = some v := getElem_of_drop_cons G k v _ hdrop
    have hmap' : rest.map Prod.fst = G.drop (k + 1) := by
      rw [← List.tail_drop G k, hdrop]
      rfl
    have hprev' : ∀ pv, (some v : Option ℚ) = some pv →
        1 ≤ k + 1 ∧ G[k + 1 - 1]? = some pv := by
      intro pv hpv
      injection hpv with hpv
      subst hpv
      exact ⟨Nat.le_add_left 1 k, by simpa using hGk⟩
    rw [realCandidatesAux.eq_def] at hc
    dsimp only at hc
    rw [List.mem_append] at hc
    rcases hc with hc | hc
    · cases prev with
      | none => simp at hc
      | some pv =>
        obtain ⟨hk1, hGk1⟩ := hprev pv rfl
        dsimp only at hc
        by_cases hv : v = pv
        · rw [if_pos hv] at hc
          simp at hc
        · rw [if_neg hv] at hc
          simp at hc
          subst hc
          refine ⟨hk1, pv, v, by simpa using hGk1, by simpa using hGk,
            fun hEq => hv hEq.symm, ?_⟩
          dsimp only
          rw [if_neg (by omega : ¬ k = 0)]
    · by_cases hlb : lb = true
      · exact ih (k + 1) (some v) _ _ _ _ hmap' hprev' c (by rwa [if_pos hlb] at hc)
      · exact ih (k + 1) (some v) _ _ _ _ hmap' hprev' c (by rwa [if_neg hlb] at hc)

/-- C6: in the continuous split search, every candidate cut the loop emits
sits at a sorted position k with k ≠ 0 whose value differs from its
predecessor — duplicate adjacent sorted values never yield a candidate cut —
and the threshold recorded for a candidate at position k is the midpoint
(values[k-1] + values[k]) / 2; the claim's "values[k] when k = 0" case is
vacuously true because position 0 is never a candidate. -/
theorem C6_real_candidates (ps : PointSet) (i : ℕ)
    (hty : ps.types.getD i FeaturesTypes.BOOLEAN = FeaturesTypes.REAL) :
    ∀ c ∈ columnCandidates ps i,
      c.pos ≠ 0 ∧
      (∃ a b, ((realSortedPairs ps i).map Prod.fst)[c.pos - 1]? = some a ∧
        ((realSortedPairs ps i).map Prod.fst)[c.pos]? = some b ∧
        a ≠ b ∧ c.thr = some ((a + b) / 2)) ∧
      (c.pos = 0 → c.thr = ((realSortedPairs ps i).map Prod.fst)[0]?) := by
  intro c hc
  rw [columnCandidates.eq_def] at hc
  dsimp only at hc
  rw [hty] at hc
  dsimp only at hc
  have key := realCandidatesAux_changes ((realSortedPairs ps i).map Prod.fst)
    (realSortedPairs ps i) 0 none _ _ _ _ (by simp) (by intro pv h; cases h) c hc
  obtain ⟨h1, a, b, ha, hb, hab, hthr⟩ := key
  exact ⟨by omega, ⟨a, b, ha, hb, hab, hthr⟩, fun h0 => absurd h0 (by omega)⟩

theorem C6_cands_eval :
    columnCandidates psC6 0 = [⟨2, 1, 1, 1, 0, some (3 / 2), none⟩] := by
  norm_num [columnCandidates, realSortedPairs, sortPairs, insertSorted,
    realCandidatesAux, psC6, PointSet.init]

/-- Witness for C6 at the single candidate of psC6's continuous column. -/
theorem C6_witness :
    (⟨2, 1, 1, 1, 0, some (3 / 2), none⟩ : Candidate).pos ≠ 0 ∧
    (∃ a b, ((realSortedPairs psC6 0).map
        Prod.fst)[(⟨2, 1, 1, 1, 0, some (3 / 2), none⟩ : Candidate).pos - 1]? = some a ∧
      ((realSortedPairs psC6 0).map
        Prod.fst)[(⟨2, 1, 1, 1, 0, some (3 / 2), none⟩ : Candidate).pos]? = some b ∧
      a ≠ b ∧ (⟨2, 1, 1, 1, 0, some (3 / 2), none⟩ : Candidate).thr =
        some ((a + b) / 2)) ∧
    ((⟨2, 1, 1, 1, 0, some (3 / 2), none⟩ : Candidate).pos = 0 →
      (⟨2, 1, 1, 1, 0, some (3 / 2), none⟩ : Candidate).thr =
        ((realSortedPairs psC6 0).map Prod.fst)[0]?) :=
  C6_real_candidates psC6 0 rfl ⟨2, 1, 1, 1, 0, some (3 / 2), none⟩
    (by rw [C6_cands_eval]; exact List.mem_singleton_self _)

theorem matchesFeat_self (f : List ℚ) : matchesFeat f f = true := by
  induction f with
  | nil => rfl
  | cons a f ih => simp [matchesFeat, ih]

theorem firstMatchIdx_append_self (f : List ℚ) (A : List (List ℚ)) :
    ∃ i, firstMatchIdx f (A ++ [f]) = some i ∧ i < (A ++ [f]).length := by
  induction A with
  | nil =>
    refine ⟨0, ?_, by simp⟩
    simp [firstMatchIdx, matchesFeat_self]
  | cons a A ih =>
    by_cases hm : matchesFeat f a = true
    · exact ⟨0, by simp [firstMatchIdx, hm], by simp⟩
    · obtain ⟨i, hi, hlt⟩ := ih
      refine ⟨i + 1, ?_, ?_⟩
      · simp [firstMatchIdx, hm, hi]
      · simpa using Nat.succ_lt_succ hlt

/-- Appending a point and then deleting by its own feature tuple brings the
stored feature count back: the delete always finds a match (the appended
point itself, or an earlier point with the same features). -/
theorem delPoints_length_after_add (ps : PointSet) (n : ℕ) (f : List ℚ) (l : Bool) :
    (delPoints (addPoints ps (n + 1) f l) (n + 1) f).features.length =
      ps.features.length := by
  have haddeq : addPoints ps (n + 1) f l =
      PointSet.init (ps.features ++ [f]) (ps.labels ++ [l]) ps.types := by
    rw [addPoints, if_pos (Nat.succ_pos n)]
  rw [haddeq]
  obtain ⟨i, hi, hlt⟩ := firstMatchIdx_append_self f ps.features
  rw [delPoints, if_pos (Nat.succ_pos n)]
  dsimp only [PointSet.init]
  rw [hi]
  dsimp only
  rw [List.length_eraseIdx, if_pos hlt]
  simp

theorem leafPredictions_succ (n msp : ℕ) (beta : ℚ) (counter : ℕ) (points : PointSet)
    (fid : Option ℕ) (fthr : Option ℚ) (fsp : Option (List ℚ × List ℚ))
    (lo ro : Option Tree) :
    (Tree.mk (n + 1) msp beta counter points fid fthr fsp lo ro).leafPredictions =
      (match lo with | some c => c.leafPredictions | none => []) ++
      (match ro with | some c => c.leafPredictions | none => []) := by
  rw [Tree.leafPredictions.eq_def]

/-- C2: an add_training_point immediately followed by a del_training_point
of the same feature tuple restores both the list of leaf predictions and the
root point count to their pre-insert values, provided neither operation
triggers a rebuild anywhere on its path (the claim's carve-out). -/
theorem C2_add_del_restores (t : Tree) (features : List ℚ) (label : Bool)
    (hadd : t.addRebuilds features label = false)
    (hdel : (t.add_training_point features label).delRebuilds features label = false) :
    ((t.add_training_point features label).del_training_point features
        label).leafPredictions = t.leafPredictions ∧
    ((t.add_training_point features label).del_training_point features
        label).pointCount = t.pointCount := by
  induction t using treeRecAux with
  | H h msp beta counter points fid fthr fsp lo ro ihl ihr =>
    rcases h with _ | n
    · -- height 0: neither operation touches the points of a leaf
      have hc1 : ¬ (((counter + 1 : ℕ) : ℚ) ≥
          beta * ((addPoints points 0 features label).features.length : ℚ)) := by
        intro hc
        rw [Tree.addRebuilds.eq_def] at hadd
        dsimp only at hadd
        rw [if_pos hc] at hadd
        exact absurd hadd (by simp)
      rw [Tree.add_training_point.eq_def] at hdel ⊢
      dsimp only at hdel ⊢
      rw [if_neg hc1, if_pos rfl] at hdel ⊢
      have hc2 : ¬ (((counter + 1 + 1 : ℕ) : ℚ) ≥
          beta * ((delPoints (addPoints points 0 features label) 0
            features).features.length : ℚ)) := by
        intro hc
        rw [Tree.delRebuilds.eq_def] at hdel
        dsimp only at hdel
        rw [if_pos hc] at hdel
        exact absurd hdel (by simp)
      rw [Tree.del_training_point.eq_def]
      dsimp only
      rw [if_neg hc2, if_pos rfl]
      have haddid : addPoints points 0 features label = points := by
        rw [addPoints, if_neg (lt_irrefl 0)]
      have hdelid : delPoints (addPoints points 0 features label) 0 features =
          addPoints points 0 features label := by
        rw [delPoints, if_neg (lt_irrefl 0)]
      rw [hdelid, haddid]
      exact ⟨rfl, rfl⟩
    · -- height n + 1: local append, then delete of the same tuple
      have hc1 : ¬ (((counter + 1 : ℕ) : ℚ) ≥
          beta * ((addPoints points (n + 1) features label).features.length : ℚ)) := by
        intro hc
        rw [Tree.addRebuilds.eq_def] at hadd
        dsimp only at hadd
        rw [if_pos hc] at hadd
        exact absurd hadd (by simp)
      rw [Tree.addRebuilds.eq_def] at hadd
      dsimp only at hadd
      rw [if_neg hc1, if_neg (Nat.succ_ne_zero n)] at hadd
      rw [Tree.add_training_point.eq_def] at hdel ⊢
      dsimp only at hdel ⊢
      rw [if_neg hc1, if_neg (Nat.succ_ne_zero n)] at hdel ⊢
      by_cases hroute : routeLeft fid fthr fsp features = true
      · rw [if_pos hroute] at hadd hdel ⊢
        have hc2 : ¬ (((counter + 1 + 1 : ℕ) : ℚ) ≥
            beta * ((delPoints (addPoints points (n + 1) features label) (n + 1)
              features).features.length : ℚ)) := by
          intro hc
          rw [Tree.delRebuilds.eq_def] at hdel
          dsimp only at hdel
          rw [if_pos hc] at hdel
          exact absurd hdel (by simp)
        rw [Tree.delRebuilds.eq_def] at hdel
        dsimp only at hdel
        rw [if_neg hc2, if_neg (Nat.succ_ne_zero n), if_pos hroute] at hdel
        rw [Tree.del_training_point.eq_def]
        dsimp only
        rw [if_neg hc2, if_neg (Nat.succ_ne_zero n), if_pos hroute]
        cases lo with
        | none =>
          dsimp only
          refine ⟨?_, delPoints_length_after_add points n features label⟩
          rw [leafPredictions_succ, leafPredictions_succ]
        | some c =>
          dsimp only at hadd hdel ⊢
          obtain ⟨ihL, ihC⟩ := ihl c rfl hadd hdel
          constructor
          · rw [leafPredictions_succ, leafPredictions_succ]
            dsimp only
            rw [ihL]
          · exact delPoints_length_after_add points n features label
      · rw [if_neg hroute] at hadd hdel ⊢
        have hc2 : ¬ (((counter + 1 + 1 : ℕ) : ℚ) ≥
            beta * ((delPoints (addPoints points (n + 1) features label) (n + 1)
              features).features.length : ℚ)) := by
          intro hc
          rw [Tree.delRebuilds.eq_def] at hdel
          dsimp only at hdel
          rw [if_pos hc] at hdel
          exact absurd hdel (by simp)
        rw [Tree.delRebuilds.eq_def] at hdel
        dsimp only at hdel
        rw [if_neg hc2, if_neg (Nat.succ_ne_zero n), if_neg hroute] at hdel
        rw [Tree.del_training_point.eq_def]
        dsimp only
        rw [if_neg hc2, if_neg (Nat.succ_ne_zero n), if_neg hroute]
        cases ro with
        | none =>
          dsimp only
          refine ⟨?_, delPoints_length_after_add points n features label⟩
          rw [leafPredictions_succ, leafPredictions_succ]
        | some c =>
          dsimp only at hadd hdel ⊢
          obtain ⟨ihL, ihC⟩ := ihr c rfl hadd hdel
          constructor
          · rw [leafPredictions_succ, leafPredictions_succ]
            dsimp only
            rw [ihL]
          · exact delPoints_length_after_add points n features label

theorem tC2_addRebuilds : tC2.addRebuilds [1] true = false := by
  norm_num [tC2, Tree.addRebuilds, addPoints, PointSet.init, routeLeft]

theorem tC2_delRebuilds :
    (tC2.add_training_point [1] true).delRebuilds [1] true = false := by
  norm_num [tC2, Tree.add_training_point, Tree.delRebuilds, addPoints, delPoints,
    firstMatchIdx, matchesFeat, PointSet.init, routeLeft]

/-- Witness for C2 on the concrete tree tC2. -/
theorem C2_witness :
    ((tC2.add_training_point [1] true).del_training_point [1] true).leafPredictions =
      tC2.leafPredictions ∧
    ((tC2.add_training_point [1] true).del_training_point [1] true).pointCount =
      tC2.pointCount :=
  C2_add_del_restores tC2 [1] true tC2_addRebuilds tC2_delRebuilds

theorem leafPredictions_zero (msp : ℕ) (beta : ℚ) (counter : ℕ) (points : PointSet)
    (fid : Option ℕ) (fthr : Option ℚ) (fsp : Option (List ℚ × List ℚ))
    (lo ro : Option Tree) :
    (Tree.mk 0 msp beta counter points fid fthr fsp lo ro).leafPredictions =
      [if points.labels.length - points.labels.countP (fun b => b) ≤
          points.labels.countP (fun b => b) then true else false] := by
  rw [Tree.leafPredictions.eq_def]

theorem decide_zero (msp : ℕ) (beta : ℚ) (counter : ℕ) (points : PointSet)
    (fid : Option ℕ) (fthr : Option ℚ) (fsp : Option (List ℚ × List ℚ))
    (lo ro : Option Tree) (features : List ℚ) :
    (Tree.mk 0 msp beta counter points fid fthr fsp lo ro).decide features =
      (if points.labels.length - points.labels.countP (fun b => b) ≤
          points.labels.countP (fun b => b) then true else false) := by
  rw [Tree.decide.eq_def]

theorem decide_succ (n msp : ℕ) (beta : ℚ) (counter : ℕ) (points : PointSet)
    (fid : Option ℕ) (fthr : Option ℚ) (fsp : Option (List ℚ × List ℚ))
    (lo ro : Option Tree) (features : List ℚ) :
    (Tree.mk (n + 1) msp beta counter points fid fthr fsp lo ro).decide features =
      (if routeLeft fid fthr fsp features then
        (match lo with | some c => c.decide features | none => false)
      else
        (match ro with | some c => c.decide features | none => false)) := by
  rw [Tree.decide.eq_def]

theorem tC1_eval : tC1 = Tree.mk 1 1 0 0
    ⟨[FeaturesTypes.REAL, FeaturesTypes.CLASSES],
      [[1 / 10, 1], [1 / 5, 1], [9 / 10, 0], [4 / 5, 0]], [true, true, false, false],
      some (1 / 2), some 0, none⟩
    (some 0) (some (1 / 2)) none
    (some (Tree.mk 0 1 0 0 (PointSet.init [[1 / 10, 1], [1 / 5, 1]] [true, true]
      [FeaturesTypes.REAL, FeaturesTypes.CLASSES]) none none none none none))
    (some (Tree.mk 0 1 0 0 (PointSet.init [[9 / 10, 0], [4 / 5, 0]] [false, false]
      [FeaturesTypes.REAL, FeaturesTypes.CLASSES]) none none none none none)) := by
  have hrange : List.range 2 = [0, 1] := by decide
  norm_num [tC1, Tree.init, build_rec, PointSet.get_best_gain, gainFold, PointSet.ncols,
    PointSet.init, columnCandidates, realSortedPairs, sortPairs, insertSorted,
    realCandidatesAux, countSplit, sortedUnique, insertUnique, stepCandidate,
    acceptCandidate, recordCandidate, PointSet.get_gini, PointSet.get_best_threshold,
    exceptValue, hrange, List.foldl_cons, List.foldl_nil, List.map_cons, List.map_nil,
    List.zip_cons_cons, List.countP_cons, List.countP_nil, List.filter_cons,
    List.enum, List.enumFrom, List.getD_cons_zero, List.getD_cons_succ, List.headD]

/-- C1: building a tree from the concrete scenario's points, types, labels,
maxHeight 1, minSplitPoints 1 yields a root that splits on the continuous
feature 0 with threshold 1/2, with a height-0 left leaf predicting true and
a height-0 right leaf predicting false; decide routes [3/10, true_cat] to
true and [19/20, false_cat] to false. -/
theorem C1_concrete_scenario :
    tC1.feature_id = some 0 ∧
    tC1.feature_split = none ∧
    tC1.feature_threshold = some (1 / 2) ∧
    (tC1.left).map Tree.h = some 0 ∧
    (tC1.right).map Tree.h = some 0 ∧
    tC1.leafPredictions = [true, false] ∧
    tC1.decide [3 / 10, 1] = true ∧
    tC1.decide [19 / 20, 0] = false := by
  rw [tC1_eval]
  refine ⟨rfl, rfl, rfl, rfl, rfl, ?_, ?_, ?_⟩
  · rw [leafPredictions_succ]
    dsimp only
    rw [leafPredictions_zero, leafPredictions_zero]
    decide
  · norm_num [decide_succ, decide_zero, routeLeft, PointSet.init]
  · norm_num [decide_succ, decide_zero, routeLeft, PointSet.init]

end DecisionTree
